import Mathlib

/-!
Verification of the certificate-resolution-and-decryption pipeline in
`pkg/decrypt/decypt_windows.go`.

The Go file consumes four opaque native capabilities (store open/close,
certificate enumeration, certificate property query, message decryption).
We model those capabilities as an oracle record `World`; the Go file's own
logic (the enumeration loop, error mapping, two-phase buffer protocol and
the thumbprint codec) is embedded directly, statement by statement.
-/

namespace Decrypt

/-- Constant `certHashPropID = 3` from the source (the thumbprint property id). -/
def certHashPropID : Nat := 3

/-- Constant `crypteEAsn1BadTag = 2148086027` from the source: the native
error code for an ASN.1 bad-tag failure. -/
def crypteEAsn1BadTag : Nat := 2148086027

/-- Constant `crypteENotFound = 0x80092004` from the source: the native
"no more certificates" enumeration code. -/
def crypteENotFound : Nat := 0x80092004

/-- A certificate context handle (`*syscall.CertContext`); nullability is
modelled with `Option CertContext`. -/
abbrev CertContext := Nat

/-- A Go `error` value, with one constructor per distinct error produced or
consumed by the source file. `errno` is a `syscall.Errno`; `plain` is any
other error value coming back from a native wrapper. -/
inductive GoErr where
  | errno (code : Nat)
  | plain (msg : String)
  | cannotOpenStore (e : GoErr)
  | errMustRunAsAdmin
  | invalidThumbprint
  | couldNotEnumerate (e : GoErr)
  | errCertWithThumbprintNotFound
  | errInvalidProtectedSettingsData
  | couldNotDecrypt (code : Nat)
  | couldNotHashCert (code : Nat)
  | jsonError (msg : String)
deriving DecidableEq, Repr

/-- Stand-in for the deserialized `map[string]interface{}` payload. -/
abbrev JsonMap := List (String × String)

/-- Oracle outcome of the two `CertGetCertificateContextProperty` calls made
for one certificate: the raw return values, the native error codes, the size
reported by the phase-1 probe, and the bytes the native call writes into the
phase-2 buffer. -/
structure CertPropResult where
  ret1 : Nat
  errno1 : Nat
  cbComputedHash : Nat
  ret2 : Nat
  errno2 : Nat
  hashBytes : List Nat
deriving DecidableEq, Repr

/-- Oracle outcome of the two `CryptDecryptMessage` calls for one
(store handle, ciphertext) pair: raw return values, native error codes, the
phase-1 reported plaintext size, the final size reported after phase 2, and
the bytes written into the phase-2 buffer. The certificate context is not an
argument of the native call, so it is not a key of this oracle. -/
structure CryptDecryptResult where
  raw1 : Nat
  errno1 : Nat
  cbDecryptedBlob : Nat
  raw2 : Nat
  errno2 : Nat
  cbFinal : Nat
  plainBytes : List Nat
deriving DecidableEq, Repr

/-- The native world consumed by the pipeline: results of `CertOpenStore`,
the successive return values of `CertEnumCertificatesInStore` (one list
entry per call; an exhausted list behaves as the terminal "no more entries"
signal), the per-certificate property-query oracle, the per-ciphertext
decryption oracle, and the JSON deserializer. -/
structure World where
  openStore : Nat × Option GoErr
  enumSteps : List (Option CertContext × Option GoErr)
  certProp : CertContext → CertPropResult
  cryptDecrypt : Nat → List Nat → CryptDecryptResult
  jsonUnmarshal : List Nat → Except String JsonMap

/-- A buffer of exactly `n` bytes whose contents come from the oracle list
`xs` (`make([]byte, n)` filled by the native call). -/
def natBuf (xs : List Nat) (n : Nat) : List Nat :=
  (xs ++ List.replicate n 0).take n

/-- Value of one hexadecimal digit character, exactly as
`strconv.ParseUint(sp, 16, 16)` treats individual characters:
`0`-`9`, `a`-`f` and `A`-`F` parse, everything else fails. -/
def hexVal (c : Char) : Option Nat :=
  let n := c.toNat
  if 48 ≤ n ∧ n ≤ 57 then some (n - 48)
  else if 97 ≤ n ∧ n ≤ 102 then some (n - 87)
  else if 65 ≤ n ∧ n ≤ 70 then some (n - 55)
  else none

/-- One iteration of the codec loop body: `strconv.ParseUint(sp, 16, 16)`
on the two-character pair followed by `byte(bp)` on success, leaving the
zero-initialized entry of `parts` untouched on failure. -/
def pairByte (c1 c2 : Char) : Nat :=
  match hexVal c1, hexVal c2 with
  | some hi, some lo => (hi * 16 + lo) % 256
  | _, _ => 0

/-- The codec loop of `thumbprintStringToHex`: `parts[count] = byte(bp)` for
each two-rune window `runes[count*2 : count*2+2]`. -/
def pairsToBytes : List Char → List Nat
  | c1 :: c2 :: rest => pairByte c1 c2 :: pairsToBytes rest
  | _ => []

/-- The effective rune sequence of `thumbprintStringToHex`: when the rune
count is odd the single leading rune is dropped (`runes = []rune(s)[1:]`)
without being validated. -/
def effRunes (s : String) : List Char :=
  if s.data.length % 2 = 1 then s.data.drop 1 else s.data

/-- Embedding of `thumbprintStringToHex` (source lines 102-121): drop a
stray leading rune on odd length, then parse each two-rune pair, zero-filling
unparseable pairs; always returns `nil` for the error. -/
def thumbprintStringToHex (s : String) : Except GoErr (List Nat) :=
  Except.ok (pairsToBytes (effRunes s))

/-- Result of `getCertificateThumbprint`: Go returns `([]byte, error)`;
`ok none` is the `nil, nil` return for a zero reported size. -/
def getCertificateThumbprint (w : World) (cert : CertContext) :
    Except GoErr (Option (List Nat)) :=
  let r := w.certProp cert
  if r.ret1 = 0 then Except.error (GoErr.couldNotHashCert r.errno1)
  else if r.cbComputedHash = 0 then Except.ok none
  else if r.ret2 = 0 then Except.error (GoErr.couldNotHashCert r.errno2)
  else Except.ok (some (natBuf r.hashBytes r.cbComputedHash))

/-- Result of `decryptDataWithCert`: `outOfRange` models the Go runtime
panic of an out-of-bounds slice access; `ok none` is the `nil, nil` return
for a zero reported size. -/
inductive DResult where
  | outOfRange
  | err (e : GoErr)
  | ok (bs : Option (List Nat))
deriving DecidableEq, Repr

/-- Embedding of `decryptDataWithCert` (source lines 124-182). The function
receives the certificate context but never reads it; the native call is keyed
only on the store handle and the ciphertext. `pbEncryptedBlob = &decoded[0]`
indexes the slice before the phase-1 call, so empty ciphertext is an
out-of-bounds access. After phase 2 the code slices `decryptedBytes` (whose
capacity is the phase-1 size) down to the final reported length. -/
def decryptDataWithCert (w : World) (decoded : List Nat)
    (cert : Option CertContext) (storeHandle : Nat) : DResult :=
  match decoded with
  | [] => DResult.outOfRange
  | _ :: _ =>
    let r := w.cryptDecrypt storeHandle decoded
    if r.raw1 = 0 then
      if r.errno1 = crypteEAsn1BadTag then
        DResult.err GoErr.errInvalidProtectedSettingsData
      else DResult.err (GoErr.couldNotDecrypt r.errno1)
    else if r.cbDecryptedBlob = 0 then DResult.ok none
    else if r.raw2 = 0 then DResult.err (GoErr.couldNotDecrypt r.errno2)
    else if r.cbFinal ≤ r.cbDecryptedBlob then
      DResult.ok (some ((natBuf r.plainBytes r.cbDecryptedBlob).take r.cbFinal))
    else DResult.outOfRange

/-- Outcome of the enumeration loop of `DecryptProtectedSettings`. -/
inductive LoopOut where
  | found (c : CertContext)
  | notFound
  | fatal (e : GoErr)
deriving DecidableEq, Repr

/-- The enumeration loop (source lines 56-84), consuming the oracle's
enumeration responses in call order. An error is inspected first: a
`syscall.Errno` equal to `crypteENotFound` breaks the loop, any other error
is fatal; then a `nil` certificate breaks the loop; otherwise the entry's
thumbprint is computed, entries whose computation fails or returns `nil` are
skipped silently, and the loop stops at the first byte-for-byte match. -/
def resolveLoop (w : World) (target : List Nat) :
    List (Option CertContext × Option GoErr) → LoopOut
  | [] => LoopOut.notFound
  | (cert?, err?) :: rest =>
    match err? with
    | some e =>
      match e with
      | GoErr.errno code =>
        if code = crypteENotFound then LoopOut.notFound
        else LoopOut.fatal (GoErr.couldNotEnumerate (GoErr.errno code))
      | _ => LoopOut.fatal (GoErr.couldNotEnumerate e)
    | none =>
      match cert? with
      | none => LoopOut.notFound
      | some cert =>
        match getCertificateThumbprint w cert with
        | Except.ok (some foundthumbprint) =>
          if target = foundthumbprint then LoopOut.found cert
          else resolveLoop w target rest
        | _ => resolveLoop w target rest

/-- Final outcome of `DecryptProtectedSettings`. -/
inductive PResult where
  | outOfRange
  | err (e : GoErr)
  | ok (v : JsonMap)
deriving DecidableEq, Repr

/-- Observable behaviour of one call to `DecryptProtectedSettings`: its
result, the store handles passed to `CertCloseStore` in order, and a ghost
field recording the certificate argument passed to `decryptDataWithCert`
(`none` when the decryption phase is never reached). -/
structure PipelineOut where
  result : PResult
  closes : List Nat
  decryptCertArg : Option (Option CertContext)
deriving DecidableEq, Repr

/-- The `defer syscall.CertCloseStore(handle, 0)` registered after a usable
handle is obtained: it appends one close of that handle to whatever exit the
rest of the body takes (a Go runtime panic also runs deferred calls). -/
def withClose (h : Nat) (o : PipelineOut) : PipelineOut :=
  { o with closes := o.closes ++ [h] }

/-- Embedding of `DecryptProtectedSettings` (source lines 34-100).
The outer `var cert *syscall.CertContext` of line 53 is modelled by the
local `cert` below: the loop of line 58 declares its own `cert` with `:=`,
shadowing the outer variable, so the outer one is never reassigned and still
holds `nil` when it is passed to `decryptDataWithCert` at line 91. -/
def DecryptProtectedSettings (w : World) (configFolder : String)
    (thumbprint : String) (decoded : List Nat) : PipelineOut :=
  match w.openStore with
  | (_, some e) => ⟨PResult.err (GoErr.cannotOpenStore e), [], none⟩
  | (handle, none) =>
    if handle = 0 then ⟨PResult.err GoErr.errMustRunAsAdmin, [], none⟩
    else
      withClose handle
        (let cert : Option CertContext := none
         match thumbprintStringToHex thumbprint with
         | Except.error _ => ⟨PResult.err GoErr.invalidThumbprint, [], none⟩
         | Except.ok decodedThumbprint =>
           match resolveLoop w decodedThumbprint w.enumSteps with
           | LoopOut.fatal e => ⟨PResult.err e, [], none⟩
           | LoopOut.notFound =>
             ⟨PResult.err GoErr.errCertWithThumbprintNotFound, [], none⟩
           | LoopOut.found _ =>
             match decryptDataWithCert w decoded cert handle with
             | DResult.outOfRange => ⟨PResult.outOfRange, [], some cert⟩
             | DResult.err e => ⟨PResult.err e, [], some cert⟩
             | DResult.ok bs? =>
               match w.jsonUnmarshal (bs?.getD []) with
               | Except.error m => ⟨PResult.err (GoErr.jsonError m), [], some cert⟩
               | Except.ok v => ⟨PResult.ok v, [], some cert⟩)

end Decrypt

namespace Decrypt

/-! ### Concrete native worlds used as witnesses -/

/-- A world whose store holds one certificate (context handle 7) with
thumbprint bytes `[171, 205]` (hex `abcd`) and whose decryption succeeds. -/
def wGood : World :=
  { openStore := (1, none)
  , enumSteps := [(some 7, none)]
  , certProp := fun _ => ⟨1, 0, 2, 1, 0, [171, 205]⟩
  , cryptDecrypt := fun _ _ => ⟨1, 0, 2, 1, 0, 2, [1, 2]⟩
  , jsonUnmarshal := fun _ => Except.ok [("key", "value")] }

/-- A world whose store open call reports an error. -/
def wOpenErr : World :=
  { openStore := (1, some (GoErr.plain "boom"))
  , enumSteps := []
  , certProp := fun _ => ⟨0, 0, 0, 0, 0, []⟩
  , cryptDecrypt := fun _ _ => ⟨0, 0, 0, 0, 0, 0, []⟩
  , jsonUnmarshal := fun _ => Except.error "x" }

/-- A world whose store open call returns a null handle without an error. -/
def wNullHandle : World :=
  { wOpenErr with openStore := (0, none) }

/-- A world whose store is empty: the first enumeration call returns a nil
entry with no error. -/
def wEmpty : World :=
  { wGood with enumSteps := [(none, none)] }

/-- A world whose phase-1 decryption call fails with the ASN.1 bad-tag code. -/
def wBadTag : World :=
  { openStore := (1, none)
  , enumSteps := []
  , certProp := fun _ => ⟨1, 0, 0, 1, 0, []⟩
  , cryptDecrypt := fun _ _ => ⟨0, crypteEAsn1BadTag, 0, 0, 0, 0, []⟩
  , jsonUnmarshal := fun _ => Except.error "x" }

/-- A world whose size probes report a required size of zero in both the
property query and the decryption. -/
def wZeroSize : World :=
  { openStore := (1, none)
  , enumSteps := []
  , certProp := fun _ => ⟨1, 0, 0, 1, 0, []⟩
  , cryptDecrypt := fun _ _ => ⟨1, 0, 0, 1, 0, 0, []⟩
  , jsonUnmarshal := fun _ => Except.error "x" }

/-! ### Claims about the decryption phase -/

/-- C9: the result of `decryptDataWithCert` is independent of its
certificate argument — for every ciphertext and store handle, any two
certificate-entry values (including nil) produce the same outcome, because
the certificate parameter is never consulted in the body. -/
theorem C9_decrypt_ignores_certificate (w : World) (decoded : List Nat)
    (c1 c2 : Option CertContext) (storeHandle : Nat) :
    decryptDataWithCert w decoded c1 storeHandle
      = decryptDataWithCert w decoded c2 storeHandle := rfl

/-- C10: `decryptDataWithCert` requires non-empty ciphertext: for empty
ciphertext it performs the out-of-bounds access `&decoded[0]` before the
phase-1 native call, in every world; and a pipeline that reaches the
decryption phase with empty decoded ciphertext hits that access. -/
theorem C10_empty_ciphertext_out_of_bounds (w : World)
    (cert : Option CertContext) (storeHandle : Nat) (cf t : String) (h : Nat) :
    decryptDataWithCert w [] cert storeHandle = DResult.outOfRange
    ∧ (w.openStore = (h, none) → h ≠ 0 →
        (∃ c, resolveLoop w (pairsToBytes (effRunes t)) w.enumSteps
            = LoopOut.found c) →
        (DecryptProtectedSettings w cf t []).result = PResult.outOfRange) := by
  refine ⟨rfl, ?_⟩
  intro hopen hnz ⟨c, hc⟩
  unfold DecryptProtectedSettings
  rw [hopen]
  simp only [withClose, thumbprintStringToHex, effRunes, if_neg hnz]
  rw [show pairsToBytes (if t.data.length % 2 = 1 then t.data.drop 1 else t.data)
      = pairsToBytes (effRunes t) from by rw [effRunes], hc]
  rfl

/-- C2: a phase-1 decryption failure whose native code is the ASN.1 bad-tag
code 2148086027 yields the invalid-ciphertext-format error; a phase-1
failure with any other code, and any phase-2 failure, yield the generic
decryption-failed error; and once phase 1 succeeds the invalid-format error
can no longer be produced. -/
theorem C2_error_code_mapping (w : World) (decoded : List Nat)
    (cert : Option CertContext) (storeHandle : Nat) (hne : decoded ≠ []) :
    ((w.cryptDecrypt storeHandle decoded).raw1 = 0 →
        (w.cryptDecrypt storeHandle decoded).errno1 = crypteEAsn1BadTag →
        decryptDataWithCert w decoded cert storeHandle
          = DResult.err GoErr.errInvalidProtectedSettingsData)
    ∧ ((w.cryptDecrypt storeHandle decoded).raw1 = 0 →
        (w.cryptDecrypt storeHandle decoded).errno1 ≠ crypteEAsn1BadTag →
        decryptDataWithCert w decoded cert storeHandle
          = DResult.err
              (GoErr.couldNotDecrypt (w.cryptDecrypt storeHandle decoded).errno1))
    ∧ ((w.cryptDecrypt storeHandle decoded).raw1 ≠ 0 →
        (w.cryptDecrypt storeHandle decoded).cbDecryptedBlob ≠ 0 →
        (w.cryptDecrypt storeHandle decoded).raw2 = 0 →
        decryptDataWithCert w decoded cert storeHandle
          = DResult.err
              (GoErr.couldNotDecrypt (w.cryptDecrypt storeHandle decoded).errno2))
    ∧ ((w.cryptDecrypt storeHandle decoded).raw1 ≠ 0 →
        decryptDataWithCert w decoded cert storeHandle
          ≠ DResult.err GoErr.errInvalidProtectedSettingsData) := by
  match decoded, hne with
  | d :: ds, _ =>
    refine ⟨fun h1 h2 => ?_, fun h1 h2 => ?_, fun h1 h2 h3 => ?_, fun h1 => ?_⟩
    · simp [decryptDataWithCert, h1, h2]
    · simp [decryptDataWithCert, h1, h2]
    · simp [decryptDataWithCert, h1, h2, h3]
    · by_cases h2 : (w.cryptDecrypt storeHandle (d :: ds)).cbDecryptedBlob = 0
      · simp [decryptDataWithCert, h1, h2]
      by_cases h3 : (w.cryptDecrypt storeHandle (d :: ds)).raw2 = 0
      · simp [decryptDataWithCert, h1, h2, h3]
      by_cases h4 : (w.cryptDecrypt storeHandle (d :: ds)).cbFinal
          ≤ (w.cryptDecrypt storeHandle (d :: ds)).cbDecryptedBlob
      · simp [decryptDataWithCert, h1, h2, h3, h4]
      · simp [decryptDataWithCert, h1, h2, h3, h4]

/-- C6: in both the thumbprint property query and the message decryption, a
phase-1 size probe that succeeds but reports a required size of zero makes
the operation return an empty (nil) result with no error. -/
theorem C6_zero_size_returns_empty (w : World) (cert : CertContext)
    (decoded : List Nat) (cert? : Option CertContext) (storeHandle : Nat) :
    ((w.certProp cert).ret1 ≠ 0 → (w.certProp cert).cbComputedHash = 0 →
        getCertificateThumbprint w cert = Except.ok none)
    ∧ (decoded ≠ [] → (w.cryptDecrypt storeHandle decoded).raw1 ≠ 0 →
        (w.cryptDecrypt storeHandle decoded).cbDecryptedBlob = 0 →
        decryptDataWithCert w decoded cert? storeHandle = DResult.ok none) := by
  constructor
  · intro h1 h2
    simp [getCertificateThumbprint, h1, h2]
  · intro hne h1 h2
    match decoded, hne with
    | d :: ds, _ => simp [decryptDataWithCert, h1, h2]

end Decrypt

namespace Decrypt

/-! ### Claims about store opening, closing and enumeration -/

/-- C3: an error from the store open call fails the pipeline with the
store-access error, while a null handle without an error fails it with the
distinct must-run-as-admin error; the two outcomes are different values. -/
theorem C3_store_open_errors_distinct (w : World) (cf t : String) (d : List Nat) :
    (∀ h e, w.openStore = (h, some e) →
        (DecryptProtectedSettings w cf t d).result
          = PResult.err (GoErr.cannotOpenStore e))
    ∧ (w.openStore = (0, none) →
        (DecryptProtectedSettings w cf t d).result
          = PResult.err GoErr.errMustRunAsAdmin)
    ∧ (∀ e, GoErr.cannotOpenStore e ≠ GoErr.errMustRunAsAdmin) := by
  refine ⟨?_, ?_, fun e => by simp⟩
  · intro h e hopen
    unfold DecryptProtectedSettings
    rw [hopen]
  · intro hopen
    unfold DecryptProtectedSettings
    rw [hopen]
    rfl

/-- C3 witness: both open-failure outcomes at concrete worlds. -/
theorem C3_witness :
    (DecryptProtectedSettings wOpenErr "c" "t" []).result
      = PResult.err (GoErr.cannotOpenStore (GoErr.plain "boom"))
    ∧ (DecryptProtectedSettings wNullHandle "c" "t" []).result
      = PResult.err GoErr.errMustRunAsAdmin :=
  ⟨(C3_store_open_errors_distinct wOpenErr "c" "t" []).1 1 (GoErr.plain "boom") rfl,
   (C3_store_open_errors_distinct wNullHandle "c" "t" []).2.1 rfl⟩

/-- C8: once a non-null store handle is acquired, every exit path of the
pipeline closes that handle exactly once (the deferred close also runs on a
runtime panic of the decryption phase). -/
theorem C8_store_closed_exactly_once (w : World) (cf t : String) (d : List Nat)
    (h : Nat) (hopen : w.openStore = (h, none)) (hnz : h ≠ 0) :
    (DecryptProtectedSettings w cf t d).closes = [h] := by
  unfold DecryptProtectedSettings
  rw [hopen]
  simp only [hnz, if_false, if_neg hnz, withClose]
  repeat' split
  all_goals rfl

/-- C8 witness: the successful pipeline run closes handle 1 exactly once. -/
theorem C8_witness : (DecryptProtectedSettings wGood "cfg" "abcd" [9]).closes = [1] :=
  C8_store_closed_exactly_once wGood "cfg" "abcd" [9] 1 rfl (by decide)

/-- C5: the terminal enumeration signal (native code 0x80092004, or a nil
entry with no error) ends the loop as a normal not-found outcome rather than
a failure; any other enumeration error is fatal; and a pipeline over an
empty store terminates with the certificate-not-found error. -/
theorem C5_enumeration_termination (w : World) (target : List Nat) :
    (∀ cert? rest, resolveLoop w target
        ((cert?, some (GoErr.errno crypteENotFound)) :: rest) = LoopOut.notFound)
    ∧ (∀ rest, resolveLoop w target ((none, none) :: rest) = LoopOut.notFound)
    ∧ (∀ cert? e rest, (∀ code, e = GoErr.errno code → code ≠ crypteENotFound) →
        resolveLoop w target ((cert?, some e) :: rest)
          = LoopOut.fatal (GoErr.couldNotEnumerate e))
    ∧ (∀ cf t d handle, w.openStore = (handle, none) → handle ≠ 0 →
        (w.enumSteps = [(none, none)]
          ∨ w.enumSteps = [(none, some (GoErr.errno crypteENotFound))]) →
        (DecryptProtectedSettings w cf t d).result
          = PResult.err GoErr.errCertWithThumbprintNotFound) := by
  refine ⟨fun cert? rest => rfl, fun rest => rfl, ?_, ?_⟩
  · intro cert? e rest hother
    cases e with
    | errno code =>
      have : code ≠ crypteENotFound := hother code rfl
      simp [resolveLoop, this]
    | plain msg => rfl
    | cannotOpenStore e => rfl
    | errMustRunAsAdmin => rfl
    | invalidThumbprint => rfl
    | couldNotEnumerate e => rfl
    | errCertWithThumbprintNotFound => rfl
    | errInvalidProtectedSettingsData => rfl
    | couldNotDecrypt code => rfl
    | couldNotHashCert code => rfl
    | jsonError msg => rfl
  · intro cf t d handle hopen hnz hsteps
    unfold DecryptProtectedSettings
    rw [hopen]
    rcases hsteps with hsteps | hsteps <;>
      simp [hnz, withClose, thumbprintStringToHex, hsteps, resolveLoop, crypteENotFound]

/-- C5 witness: a pipeline over the empty store yields the
certificate-not-found error. -/
theorem C5_witness :
    (DecryptProtectedSettings wEmpty "c" "t" []).result
      = PResult.err GoErr.errCertWithThumbprintNotFound :=
  (C5_enumeration_termination wEmpty []).2.2.2 "c" "t" [] 1 rfl (by decide) (Or.inl rfl)

end Decrypt

namespace Decrypt

/-- C1: evaluation at a store whose single certificate (context 7) matches
the target thumbprint `abcd`. The enumeration loop does stop at and retain
the matching entry, but the certificate value passed to the decryption
phase is `none` (Go `nil`), not that entry: the loop's `cert, err := ...`
declares a new `cert` variable, shadowing the outer one of line 53, which
is the one passed to `decryptDataWithCert` at line 91. Decryption still
succeeds only because `decryptDataWithCert` never reads its certificate
argument. -/
theorem C1_matched_entry_not_passed_to_decryption :
    thumbprintStringToHex "abcd" = Except.ok [171, 205]
    ∧ getCertificateThumbprint wGood 7 = Except.ok (some [171, 205])
    ∧ resolveLoop wGood [171, 205] wGood.enumSteps = LoopOut.found 7
    ∧ (DecryptProtectedSettings wGood "cfg" "abcd" [9]).decryptCertArg = some none
    ∧ (DecryptProtectedSettings wGood "cfg" "abcd" [9]).result
        = PResult.ok [("key", "value")] := by
  exact ⟨rfl, rfl, rfl, rfl, rfl⟩

/-- C2 witness: a phase-1 failure with the ASN.1 bad-tag code yields the
invalid-ciphertext-format error. -/
theorem C2_witness :
    decryptDataWithCert wBadTag [9] none 1
      = DResult.err GoErr.errInvalidProtectedSettingsData :=
  (C2_error_code_mapping wBadTag [9] none 1 (by decide)).1 rfl rfl

/-- C6 witness: zero reported sizes give empty results without errors in
both operations. -/
theorem C6_witness :
    getCertificateThumbprint wZeroSize 0 = Except.ok none
    ∧ decryptDataWithCert wZeroSize [9] none 1 = DResult.ok none :=
  ⟨(C6_zero_size_returns_empty wZeroSize 0 [9] none 1).1 (by decide) rfl,
   (C6_zero_size_returns_empty wZeroSize 0 [9] none 1).2 (by decide) (by decide) rfl⟩

/-- C10 witness: the pipeline that resolves a certificate but receives empty
ciphertext reaches the out-of-bounds access. -/
theorem C10_witness :
    decryptDataWithCert wGood [] none 1 = DResult.outOfRange
    ∧ (DecryptProtectedSettings wGood "cfg" "abcd" []).result
        = PResult.outOfRange := by
  refine ⟨(C10_empty_ciphertext_out_of_bounds wGood none 1 "cfg" "abcd" 1).1,
    (C10_empty_ciphertext_out_of_bounds wGood none 1 "cfg" "abcd" 1).2
      rfl (by decide) ⟨7, by decide⟩⟩

end Decrypt

namespace Decrypt

/-! ### The thumbprint codec -/

/-- Arithmetic characterization of `hexVal` over the code point. -/
theorem hexVal_eq (c : Char) : hexVal c =
    if 48 ≤ c.toNat ∧ c.toNat ≤ 57 then some (c.toNat - 48)
    else if 97 ≤ c.toNat ∧ c.toNat ≤ 102 then some (c.toNat - 87)
    else if 65 ≤ c.toNat ∧ c.toNat ≤ 70 then some (c.toNat - 55)
    else none := rfl

/-- A hexadecimal digit value is below 16. -/
theorem hexVal_lt {c : Char} {v : Nat} (h : hexVal c = some v) : v < 16 := by
  rw [hexVal_eq] at h
  split_ifs at h <;> simp only [Option.some.injEq] at h <;> omega

/-- A pair of valid digits contributes `hi * 16 + lo`. -/
theorem pairByte_some {c1 c2 : Char} {v1 v2 : Nat}
    (h1 : hexVal c1 = some v1) (h2 : hexVal c2 = some v2) :
    pairByte c1 c2 = v1 * 16 + v2 := by
  have b1 := hexVal_lt h1
  have b2 := hexVal_lt h2
  unfold pairByte
  rw [h1, h2]
  exact Nat.mod_eq_of_lt (by omega)

/-- An unparseable pair contributes a zero byte. -/
theorem pairByte_none {c1 c2 : Char}
    (h : (hexVal c1).isNone ∨ (hexVal c2).isNone) : pairByte c1 c2 = 0 := by
  unfold pairByte
  rcases h with h | h
  · rw [Option.isNone_iff_eq_none] at h
    rw [h]
  · rw [Option.isNone_iff_eq_none] at h
    rw [h]
    cases hexVal c1 <;> rfl

/-- Every byte produced by the codec loop fits in 8 bits. -/
theorem pairByte_lt (c1 c2 : Char) : pairByte c1 c2 < 256 := by
  unfold pairByte
  split
  · exact Nat.mod_lt _ (by omega)
  · omega

/-- The codec loop produces one byte per two input characters. -/
theorem pairsToBytes_length : ∀ l : List Char,
    (pairsToBytes l).length = l.length / 2
  | [] => rfl
  | [_] => by simp [pairsToBytes]
  | c1 :: c2 :: rest => by
    simp only [pairsToBytes, List.length_cons, pairsToBytes_length rest]
    omega

/-- Indexing the codec loop output reads the character pair at the doubled
index. -/
theorem pairsToBytes_getElem? : ∀ (l : List Char) (i : Nat) (c1 c2 : Char),
    l[2 * i]? = some c1 → l[2 * i + 1]? = some c2 →
    (pairsToBytes l)[i]? = some (pairByte c1 c2)
  | [], _, _, _, h1, _ => by simp at h1
  | [c], i, _, _, h1, h2 => by
    rcases i with _ | j
    · simp at h2
    · simp [show 2 * (j + 1) = 2 * j + 1 + 1 from by omega] at h1
  | a :: b :: rest, i, c1, c2, h1, h2 => by
    rcases i with _ | j
    · simp only [Nat.mul_zero, List.getElem?_cons_zero, Option.some.injEq] at h1
      simp only [Nat.mul_zero, Nat.zero_add, List.getElem?_cons_succ,
        List.getElem?_cons_zero, Option.some.injEq] at h2
      subst h1; subst h2
      simp [pairsToBytes]
    · rw [show 2 * (j + 1) = 2 * j + 1 + 1 from by omega] at h1
      rw [show 2 * (j + 1) + 1 = 2 * j + 1 + 1 + 1 from by omega] at h2
      simp only [List.getElem?_cons_succ] at h1 h2
      simp only [pairsToBytes, List.getElem?_cons_succ]
      exact pairsToBytes_getElem? rest j c1 c2 (by simpa using h1) h2

/-- All bytes produced by the codec loop are below 256. -/
theorem pairsToBytes_lt : ∀ l : List Char, ∀ b ∈ pairsToBytes l, b < 256
  | [] => by simp [pairsToBytes]
  | [c] => by simp [pairsToBytes]
  | c1 :: c2 :: rest => by
    intro b hb
    simp only [pairsToBytes, List.mem_cons] at hb
    rcases hb with hb | hb
    · subst hb; exact pairByte_lt c1 c2
    · exact pairsToBytes_lt rest b hb

/-- C4: the thumbprint codec has no failure path: for every input string it
returns a byte sequence whose length is half the (effective) rune count; on
odd length the leading rune is dropped without validation; each two-rune
pair parses independently as an unsigned 8-bit value, with an unparseable
pair contributing a zero byte. -/
theorem C4_codec_total (s : String) :
    ∃ bs : List Nat, thumbprintStringToHex s = Except.ok bs
      ∧ bs.length = s.data.length / 2
      ∧ (s.data.length % 2 = 1 →
          thumbprintStringToHex s = thumbprintStringToHex (String.mk (s.data.drop 1)))
      ∧ (∀ i c1 c2, (effRunes s)[2 * i]? = some c1 →
          (effRunes s)[2 * i + 1]? = some c2 →
          ((hexVal c1).isNone ∨ (hexVal c2).isNone → bs[i]? = some 0)
          ∧ (∀ v1 v2, hexVal c1 = some v1 → hexVal c2 = some v2 →
              bs[i]? = some (v1 * 16 + v2)))
      ∧ ∀ b ∈ bs, b < 256 := by
  refine ⟨pairsToBytes (effRunes s), rfl, ?_, ?_, ?_, pairsToBytes_lt _⟩
  · rw [pairsToBytes_length]
    unfold effRunes
    split
    · next h => simp only [List.length_drop]; omega
    · rfl
  · intro hodd
    unfold thumbprintStringToHex effRunes
    rw [show (String.mk (s.data.drop 1)).data = s.data.drop 1 from rfl,
      if_pos hodd, if_neg (by simp only [List.length_drop]; omega)]
  · intro i c1 c2 h1 h2
    constructor
    · intro hnone
      rw [pairsToBytes_getElem? _ i c1 c2 h1 h2, pairByte_none hnone]
    · intro v1 v2 hv1 hv2
      rw [pairsToBytes_getElem? _ i c1 c2 h1 h2, pairByte_some hv1 hv2]

/-- C4 witness: the 7-rune string `X0AZZff` drops its leading rune, decodes
to three bytes, and its unparseable middle pair `ZZ` contributes a zero. -/
theorem C4_witness :
    ∃ bs : List Nat, thumbprintStringToHex "X0AZZff" = Except.ok bs
      ∧ bs.length = 3 ∧ bs[1]? = some 0 ∧ bs[2]? = some 255 := by
  obtain ⟨bs, h1, h2, _, h4, _⟩ := C4_codec_total "X0AZZff"
  refine ⟨bs, h1, by simpa using h2, ?_, ?_⟩
  · exact (h4 1 'Z' 'Z' (by decide) (by decide)).1 (Or.inl (by decide))
  · simpa using (h4 2 'f' 'f' (by decide) (by decide)).2 15 15 (by decide) (by decide)

end Decrypt

namespace Decrypt

/-- Conversion of a valid code point back to a character keeps the code
point. -/
theorem toNat_ofNat_valid {n : Nat} (h : n < 55296) :
    (Char.ofNat n).toNat = n := by
  rw [Char.ofNat, dif_pos (Or.inl h)]
  rfl

/-- Modelled from the spec: the re-encoding direction of the thumbprint
codec (two lowercase hexadecimal digits per byte). The source only contains
the decoding direction, so the encoder is taken from the spec's round-trip
property. -/
def hexChar (m : Nat) : Char :=
  if m < 10 then Char.ofNat (48 + m) else Char.ofNat (87 + m)

/-- Modelled from the spec: hex re-encoding of a byte sequence. -/
def hexEncode : List Nat → List Char
  | [] => []
  | b :: rest => hexChar (b / 16 % 16) :: hexChar (b % 16) :: hexEncode rest

/-- Decoding inverts the digit encoder on values below 16. -/
theorem hexVal_hexChar {m : Nat} (h : m < 16) : hexVal (hexChar m) = some m := by
  unfold hexChar
  split
  · next h10 =>
    have ht : (Char.ofNat (48 + m)).toNat = 48 + m := toNat_ofNat_valid (by omega)
    rw [hexVal_eq, ht, if_pos (by omega)]
    congr 1
    omega
  · next h10 =>
    have ht : (Char.ofNat (87 + m)).toNat = 87 + m := toNat_ofNat_valid (by omega)
    rw [hexVal_eq, ht, if_neg (by omega), if_pos (by omega)]
    congr 1
    omega

/-- Encoding a digit value recovers the lowercase spelling of the digit it
was decoded from. -/
theorem hexChar_hexVal {c : Char} {v : Nat} (h : hexVal c = some v) :
    hexChar v = Char.toLower c := by
  have hlow : Char.toLower c =
      if 65 ≤ c.toNat ∧ c.toNat ≤ 90 then Char.ofNat (c.toNat + 32) else c := rfl
  rw [hexVal_eq] at h
  split_ifs at h with hd hl hu <;> simp only [Option.some.injEq] at h <;> subst h
  · rw [hlow, if_neg (by omega)]
    unfold hexChar
    rw [if_pos (by omega), show 48 + (c.toNat - 48) = c.toNat from by omega,
      Char.ofNat_toNat]
  · rw [hlow, if_neg (by omega)]
    unfold hexChar
    rw [if_neg (by omega), show 87 + (c.toNat - 87) = c.toNat from by omega,
      Char.ofNat_toNat]
  · rw [hlow, if_pos (by omega)]
    unfold hexChar
    rw [if_neg (by omega)]
    congr 1
    omega

/-- Lowercasing a character does not change its hexadecimal digit value. -/
theorem hexVal_toLower (c : Char) : hexVal (Char.toLower c) = hexVal c := by
  have hlow : Char.toLower c =
      if 65 ≤ c.toNat ∧ c.toNat ≤ 90 then Char.ofNat (c.toNat + 32) else c := rfl
  rw [hlow]
  split
  · next h =>
    have ht : (Char.ofNat (c.toNat + 32)).toNat = c.toNat + 32 :=
      toNat_ofNat_valid (by omega)
    rw [hexVal_eq, hexVal_eq, ht]
    split_ifs <;>
      first
        | rfl
        | omega
        | (simp only [Option.some.injEq]; omega)
  · rfl

set_option maxRecDepth 4000 in
/-- Uppercasing a character does not change its hexadecimal digit value. -/
theorem hexVal_toUpper (c : Char) : hexVal (Char.toUpper c) = hexVal c := by
  have hup : Char.toUpper c =
      if 97 ≤ c.toNat ∧ c.toNat ≤ 122 then Char.ofNat (c.toNat - 32) else c := rfl
  rw [hup]
  split
  · next h =>
    have ht : (Char.ofNat (c.toNat - 32)).toNat = c.toNat - 32 :=
      toNat_ofNat_valid (by omega)
    rw [hexVal_eq, hexVal_eq, ht]
    split_ifs <;>
      first
        | rfl
        | omega
        | (simp only [Option.some.injEq]; omega)
  · rfl

/-- A character map that preserves digit values leaves the decoded bytes
unchanged. -/
theorem pairsToBytes_map (f : Char → Char) (hf : ∀ c, hexVal (f c) = hexVal c) :
    ∀ l : List Char, pairsToBytes (l.map f) = pairsToBytes l
  | [] => rfl
  | [c] => rfl
  | c1 :: c2 :: rest => by
    simp only [List.map_cons, pairsToBytes]
    rw [pairsToBytes_map f hf rest]
    congr 1
    unfold pairByte
    rw [hf c1, hf c2]

/-- Re-encoding the decode of an even-length valid-hex character list gives
back its lowercase spelling. -/
theorem hexEncode_pairsToBytes : ∀ l : List Char, l.length % 2 = 0 →
    (∀ c ∈ l, (hexVal c).isSome) →
    hexEncode (pairsToBytes l) = l.map Char.toLower
  | [] => fun _ _ => rfl
  | [c] => fun h _ => by simp at h
  | c1 :: c2 :: rest => fun h hh => by
    obtain ⟨v1, hv1⟩ := Option.isSome_iff_exists.mp (hh c1 (by simp))
    obtain ⟨v2, hv2⟩ := Option.isSome_iff_exists.mp (hh c2 (by simp))
    have b1 := hexVal_lt hv1
    have b2 := hexVal_lt hv2
    simp only [pairsToBytes, hexEncode, List.map_cons]
    rw [pairByte_some hv1 hv2,
      show (v1 * 16 + v2) / 16 % 16 = v1 from by omega,
      show (v1 * 16 + v2) % 16 = v2 from by omega,
      hexChar_hexVal hv1, hexChar_hexVal hv2,
      hexEncode_pairsToBytes rest
        (by simp only [List.length_cons] at h; omega)
        (fun c hc => hh c (by simp [hc]))]

/-- Decoding a string built from an even-length character list needs no
leading-rune drop. -/
theorem thumbprint_mk_even (l : List Char) (h : l.length % 2 = 0) :
    thumbprintStringToHex (String.mk l) = Except.ok (pairsToBytes l) := by
  unfold thumbprintStringToHex effRunes
  rw [show (String.mk l).data = l from rfl, if_neg (by omega)]

/-- C7: for every even-length string of valid hexadecimal digit pairs,
re-encoding the decoded bytes reproduces the original string up to digit
case (hence the re-encoded string decodes to the same byte values), and
decoding is case-insensitive: the uppercase and lowercase spellings decode
to the same byte sequence. -/
theorem C7_roundtrip_case_insensitive (s : String) (bs : List Nat)
    (hlen : s.data.length % 2 = 0)
    (hhex : ∀ c ∈ s.data, (hexVal c).isSome)
    (hdec : thumbprintStringToHex s = Except.ok bs) :
    hexEncode bs = s.data.map Char.toLower
    ∧ thumbprintStringToHex (String.mk (hexEncode bs)) = Except.ok bs
    ∧ thumbprintStringToHex (String.mk (s.data.map Char.toLower)) = Except.ok bs
    ∧ thumbprintStringToHex (String.mk (s.data.map Char.toUpper)) = Except.ok bs := by
  have heff : effRunes s = s.data := by
    unfold effRunes
    rw [if_neg (by omega)]
  have hbs : bs = pairsToBytes s.data := by
    have h2 : thumbprintStringToHex s = Except.ok (pairsToBytes s.data) := by
      unfold thumbprintStringToHex
      rw [heff]
    rw [h2] at hdec
    exact (Except.ok.inj hdec).symm
  have henc : hexEncode bs = s.data.map Char.toLower := by
    rw [hbs]
    exact hexEncode_pairsToBytes s.data hlen hhex
  refine ⟨henc, ?_, ?_, ?_⟩
  · rw [thumbprint_mk_even _ (by rw [henc]; simpa using hlen), henc,
      pairsToBytes_map Char.toLower hexVal_toLower, hbs]
  · rw [thumbprint_mk_even _ (by simpa using hlen),
      pairsToBytes_map Char.toLower hexVal_toLower, hbs]
  · rw [thumbprint_mk_even _ (by simpa using hlen),
      pairsToBytes_map Char.toUpper hexVal_toUpper, hbs]

/-- C7 witness: the mixed-case string `Ab12` decodes to `[171, 18]`,
re-encodes to `ab12`, and its uppercase spelling decodes identically. -/
theorem C7_witness :
    hexEncode [171, 18] = "ab12".data
    ∧ thumbprintStringToHex (String.mk (hexEncode [171, 18])) = Except.ok [171, 18]
    ∧ thumbprintStringToHex (String.mk ("Ab12".data.map Char.toUpper))
        = Except.ok [171, 18] := by
  have h := C7_roundtrip_case_insensitive "Ab12" [171, 18] (by decide)
    (by decide) rfl
  refine ⟨?_, h.2.1, h.2.2.2⟩
  rw [h.1]
  rfl

end Decrypt
